import Mathlib

set_option maxRecDepth 40000

/-!
Verification development for the OVRLipSync runtime decoding module
(`OVRLipSyncDecode.cpp`): a WAV container parser, PCM normalizer,
linear-interpolation resampler, and the frame-windowing loop that drives the
external viseme-extraction engine.

The C++ code is shallowly embedded as executable Lean definitions:

* Byte buffers are `List ℕ` (each entry a byte value 0..255); machine
  integers are modeled as `ℤ` / `ℕ` with explicit wrap-around (`% 2^32`,
  16-bit wrap) exactly where the C code's implicit conversions wrap.
* The single-precision `float` arithmetic used by `ResampleAudio` and the
  chunk-size / frame-offset computations of `GenerateLipSyncSequenceRuntime`
  is emulated exactly over unnormalized integer fractions (`Frac`): every
  float operation computes the exact rational result and rounds it to the
  nearest IEEE-754 binary32 value (ties to even).  The emulation covers the
  normal binary32 range, which contains every value these computations
  produce for in-range inputs; overflow and subnormal behavior is not
  modeled.
* Reads that the C++ code performs out of bounds (undefined behavior) are
  modeled with `List.getD _ 0`, i.e. an out-of-range read yields 0, and a
  `Memcpy` whose declared size exceeds the available bytes copies only the
  bytes that exist.
* The external extraction engine (`UOVRLipSyncContextWrapper::ProcessFrame`)
  is opaque and stateful; it is modeled as a pure step function
  `σ → List ℤ → ℕ → Bool → σ × FrameResult V` taking the interleaved chunk,
  the per-channel sample count and the stereo flag, and returning the next
  engine state plus the frame outputs.  The viseme weights and laughter
  score it reports are opaque payloads (type parameter `V`) that the
  pipeline only forwards.
-/

/-! ## Exact binary32 (single-precision float) emulation over fractions -/

/-- An unnormalized fraction `num / den`.  All constructors used in this file
keep `den` positive, so comparisons can cross-multiply without sign care. -/
structure Frac where
  num : ℤ
  den : ℤ
deriving DecidableEq

def negF (q : Frac) : Frac := ⟨-q.num, q.den⟩

def rawAdd (a b : Frac) : Frac := ⟨a.num * b.den + b.num * a.den, a.den * b.den⟩

def rawSub (a b : Frac) : Frac := ⟨a.num * b.den - b.num * a.den, a.den * b.den⟩

def rawMul (a b : Frac) : Frac := ⟨a.num * b.num, a.den * b.den⟩

/-- Exact quotient; the sign is moved into the numerator so `den` stays
positive.  (A zero divisor arises only on code paths the C++ never takes with
a zero divisor producing a finite result; the value is then irrelevant.) -/
def rawDiv (a b : Frac) : Frac :=
  if 0 ≤ b.num then ⟨a.num * b.den, a.den * b.num⟩ else ⟨-(a.num * b.den), -(a.den * b.num)⟩

/-- Floor of a fraction with positive denominator. -/
def floorF (q : Frac) : ℤ := Int.fdiv q.num q.den

/-- Ceiling, as used by `FMath::CeilToInt`. -/
def ceilF (q : Frac) : ℤ := -(Int.fdiv (-q.num) q.den)

/-- Truncation toward zero, the semantics of C's `(int)` cast on a float. -/
def truncF (q : Frac) : ℤ := if 0 ≤ q.num then Int.fdiv q.num q.den else -(Int.fdiv (-q.num) q.den)

/-- Round a fraction to the nearest integer, ties to even (IEEE default). -/
def rneF (q : Frac) : ℤ :=
  let f := Int.fdiv q.num q.den
  let r2 := 2 * (q.num - f * q.den)
  if r2 < q.den then f
  else if q.den < r2 then f + 1
  else if f % 2 = 0 then f else f + 1

/-- The dyadic fraction `2 ^ n`. -/
def pow2F (n : ℤ) : Frac :=
  if 0 ≤ n then ⟨((2 ^ n.toNat : ℕ) : ℤ), 1⟩ else ⟨1, ((2 ^ (-n).toNat : ℕ) : ℤ)⟩

/-- `2 ^ m ≤ q`, for positive `q` with positive denominator. -/
def le2 (q : Frac) (m : ℤ) : Bool :=
  if 0 ≤ m then decide (q.den * ((2 ^ m.toNat : ℕ) : ℤ) ≤ q.num)
  else decide (q.den ≤ q.num * ((2 ^ (-m).toNat : ℕ) : ℤ))

/-- Increase `e` while `2 ^ (e+1) ≤ q`; on exit `2 ^ e ≤ q < 2 ^ (e+1)`. -/
def findExpUp (q : Frac) : ℕ → ℤ → ℤ
  | 0, e => e
  | n + 1, e => if le2 q (e + 1) then findExpUp q n (e + 1) else e

/-- Decrease `e` while `q < 2 ^ e`; on exit `2 ^ e ≤ q < 2 ^ (e+1)`. -/
def findExpDown (q : Frac) : ℕ → ℤ → ℤ
  | 0, e => e
  | n + 1, e => if le2 q e then e else findExpDown q n (e - 1)

/-- Binade exponent of a positive fraction: the `e` with `2 ^ e ≤ q < 2 ^ (e+1)`.
The scan fuel of 150 covers every magnitude arising from 32-bit inputs. -/
def findExp (q : Frac) : ℤ :=
  if q.den ≤ q.num then findExpUp q 150 0 else findExpDown q 150 (-1)

/-- Round a positive fraction to the nearest binary32 value (24-bit mantissa,
ties to even), returned as an exact dyadic fraction. -/
def roundPosF (q : Frac) : Frac :=
  let e := findExp q
  rawMul ⟨rneF (rawMul q (pow2F (23 - e))), 1⟩ (pow2F (e - 23))

/-- Round any fraction to the nearest binary32 value. -/
def roundF32 (q : Frac) : Frac :=
  if q.num = 0 then ⟨0, 1⟩
  else if 0 < q.num then roundPosF q
  else negF (roundPosF (negF q))

/-- binary32 addition: exact sum, then round. -/
def fadd (a b : Frac) : Frac := roundF32 (rawAdd a b)

/-- binary32 subtraction. -/
def fsub (a b : Frac) : Frac := roundF32 (rawSub a b)

/-- binary32 multiplication. -/
def fmul (a b : Frac) : Frac := roundF32 (rawMul a b)

/-- binary32 division. -/
def fdivF (a b : Frac) : Frac := roundF32 (rawDiv a b)

/-- Conversion of an integer to binary32 (C implicit `int`→`float`). -/
def f32ofInt (n : ℤ) : Frac := roundF32 ⟨n, 1⟩

def f32ofNat (n : ℕ) : Frac := f32ofInt n

/-! ## Container parser (`Base64ToSoundWave`, lines 82-225)

The base64 decoding itself is done by the external `FBase64::Decode`; the
model starts from the decoded byte buffer. -/

/-- The distinct failure exits of `Base64ToSoundWave`, in source order (each
corresponds to one `UE_LOG(..., Error, ...)`/`return nullptr` pair). -/
inductive ParseError where
  | decodedEmpty : ParseError
  | tooSmall : ParseError
  | invalidRiff : ParseError
  | invalidWave : ParseError
  | fmtNotFound : ParseError
  | unsupportedFormat : ParseError
  | unsupportedBitDepth : ParseError
  | dataNotFound : ParseError
  | dataExceedsBuffer : ParseError
deriving DecidableEq

/-- Success-or-error result (the C++ returns a pointer or `nullptr` plus a
logged message; the error carries which message was logged). -/
inductive PResult (α : Type) where
  | err : ParseError → PResult α
  | ok : α → PResult α
deriving DecidableEq

/-- Little-endian 16-bit read at byte offset `i`. -/
def readU16 (bytes : List ℕ) (i : ℕ) : ℕ := bytes.getD i 0 + 256 * bytes.getD (i + 1) 0

/-- Little-endian 32-bit read at byte offset `i`. -/
def readU32 (bytes : List ℕ) (i : ℕ) : ℕ :=
  bytes.getD i 0 + 256 * bytes.getD (i + 1) 0 + 65536 * bytes.getD (i + 2) 0 +
    16777216 * bytes.getD (i + 3) 0

/-- Do the four bytes at position `p` equal the tag `(t0,t1,t2,t3)`? -/
def tagAt (bytes : List ℕ) (p t0 t1 t2 t3 : ℕ) : Bool :=
  bytes.getD p 0 == t0 && bytes.getD (p + 1) 0 == t1 &&
    bytes.getD (p + 2) 0 == t2 && bytes.getD (p + 3) 0 == t3

/-- The chunk-search loops of `Base64ToSoundWave` (lines 126-135 and 164-173):
starting from `pos`, while `pos < bytes.length - 8`, stop at the first
position whose four bytes equal the tag, advancing by ONE byte otherwise.
`fuel` only bounds the recursion; `bytes.length` steps always suffice. -/
def scanTag (bytes : List ℕ) (t0 t1 t2 t3 : ℕ) : ℕ → ℕ → Option ℕ
  | 0, _ => none
  | fuel + 1, pos =>
    if pos < bytes.length - 8 then
      if tagAt bytes pos t0 t1 t2 t3 then some pos
      else scanTag bytes t0 t1 t2 t3 fuel (pos + 1)
    else none

/-- Result of WAV header parsing: the fields `Base64ToSoundWave` extracts. -/
structure WavHeader where
  audioFormat : ℕ
  numChannels : ℕ
  sampleRate : ℕ
  bitsPerSample : ℕ
  dataStart : ℕ
  dataSize : ℕ
deriving DecidableEq

/-- Header-parsing portion of `Base64ToSoundWave` (lines 98-189): empty check,
44-byte minimum, RIFF/WAVE magic, byte-wise scans for `fmt ` and `data`,
format/bit-depth validation, and the data-size bounds check.  The bounds
check reproduces the C++ faithfully: `DataStart + DataSize` is computed in
`uint32`, i.e. modulo `2^32` (line 185).  Note the parsed channel count is
NOT validated here — the source has no such check. -/
def parseWavHeader (bytes : List ℕ) : PResult WavHeader :=
  if bytes.length = 0 then .err .decodedEmpty
  else if bytes.length < 44 then .err .tooSmall
  else if bytes.getD 0 0 ≠ 82 ∨ bytes.getD 1 0 ≠ 73 ∨ bytes.getD 2 0 ≠ 70 ∨ bytes.getD 3 0 ≠ 70 then
    .err .invalidRiff
  else if bytes.getD 8 0 ≠ 87 ∨ bytes.getD 9 0 ≠ 65 ∨ bytes.getD 10 0 ≠ 86 ∨ bytes.getD 11 0 ≠ 69 then
    .err .invalidWave
  else
    match scanTag bytes 102 109 116 32 bytes.length 12 with
    | none => .err .fmtNotFound
    | some fmtPos =>
      if readU16 bytes (fmtPos + 8) ≠ 1 then .err .unsupportedFormat
      else if readU16 bytes (fmtPos + 22) ≠ 8 ∧ readU16 bytes (fmtPos + 22) ≠ 16 ∧
          readU16 bytes (fmtPos + 22) ≠ 24 ∧ readU16 bytes (fmtPos + 22) ≠ 32 then
        .err .unsupportedBitDepth
      else
        match scanTag bytes 100 97 116 97 bytes.length 12 with
        | none => .err .dataNotFound
        | some dataPos =>
          if bytes.length < (dataPos + 8 + readU32 bytes (dataPos + 4)) % 4294967296 then
            .err .dataExceedsBuffer
          else
            .ok ⟨readU16 bytes (fmtPos + 8), readU16 bytes (fmtPos + 10),
                 readU32 bytes (fmtPos + 12), readU16 bytes (fmtPos + 22),
                 dataPos + 8, readU32 bytes (dataPos + 4)⟩

/-! ## PCM normalizer (`Base64ToSoundWave`, lines 223-271) -/

/-- C implicit conversion of an `int` value to `int16_t`: wrap modulo `2^16`
into `[-32768, 32767]`. -/
def wrapInt16 (n : ℤ) : ℤ := (n + 32768) % 65536 - 32768

/-- 16-bit branch (line 235): the raw bytes are reinterpreted as little-endian
`int16` samples. -/
def pairs16 : List ℕ → List ℤ
  | b0 :: b1 :: rest => wrapInt16 ((b0 : ℤ) + 256 * b1) :: pairs16 rest
  | _ => []

/-- 8-bit branch (line 244): `(static_cast<int16_t>(s) - 128) * 256`, the
arithmetic in `int`, the result stored into `int16_t`. -/
def conv8 (s : ℕ) : ℤ := wrapInt16 (((s : ℤ) - 128) * 256)

/-- 24-bit branch (lines 254-259): assemble the little-endian 24-bit value,
sign-extend bit 23 into an `int32`, arithmetic-shift right by 8, store into
`int16_t`. -/
def conv24 (b0 b1 b2 : ℕ) : ℤ :=
  let v : ℕ := 65536 * b2 + 256 * b1 + b0
  let s32 : ℤ := if 8388608 ≤ v then (v : ℤ) - 16777216 else (v : ℤ)
  wrapInt16 (Int.fdiv s32 256)

/-- 32-bit branch (line 269): little-endian signed 32-bit sample,
arithmetic-shift right by 16, store into `int16_t`. -/
def conv32 (b0 b1 b2 b3 : ℕ) : ℤ :=
  let u : ℕ := 16777216 * b3 + 65536 * b2 + 256 * b1 + b0
  let s32 : ℤ := if 2147483648 ≤ u then (u : ℤ) - 4294967296 else (u : ℤ)
  wrapInt16 (Int.fdiv s32 65536)

/-- Conversion of the data payload to 16-bit PCM (lines 223-271).
`NumSamples = DataSize / BytesPerSample` (integer division).  In the 16-bit
branch the C++ `Memcpy`s `DataSize` bytes; when the declared size exceeds the
available bytes that read is undefined behavior, modeled here by copying only
the bytes that exist.  The per-sample loops of the other branches read via
`getD _ 0` for the same reason. -/
def convertTo16Bit (bytes : List ℕ) (h : WavHeader) : List ℤ :=
  let numSamples := h.dataSize / (h.bitsPerSample / 8)
  if h.bitsPerSample = 16 then
    (pairs16 ((bytes.drop h.dataStart).take h.dataSize)).take numSamples
  else if h.bitsPerSample = 8 then
    (List.range numSamples).map (fun i => conv8 (bytes.getD (h.dataStart + i) 0))
  else if h.bitsPerSample = 24 then
    (List.range numSamples).map (fun i =>
      conv24 (bytes.getD (h.dataStart + 3 * i) 0) (bytes.getD (h.dataStart + 3 * i + 1) 0)
        (bytes.getD (h.dataStart + 3 * i + 2) 0))
  else if h.bitsPerSample = 32 then
    (List.range numSamples).map (fun i =>
      conv32 (bytes.getD (h.dataStart + 4 * i) 0) (bytes.getD (h.dataStart + 4 * i + 1) 0)
        (bytes.getD (h.dataStart + 4 * i + 2) 0) (bytes.getD (h.dataStart + 4 * i + 3) 0))
  else []

/-! ## Resampler (`ResampleAudio`, lines 36-80) -/

/-- One interpolated output sample (lines 57-76), with every `float` step
emulated exactly: `SourceFrameFloat = TargetFrame / ResampleRatio`,
`Fraction = SourceFrameFloat - SourceFrame0`, linear interpolation, then
`FMath::RoundToInt` (modeled as `floor(x + 0.5f)`) clamped to `int16` range.
A negative source index would be an out-of-bounds read in C++; the model
reads index `.toNat` via `getD _ 0`. -/
def resampleOne (srcData : List ℤ) (srcFrames : ℤ) (factor : Frac) (nc t ch : ℕ) : ℤ :=
  let sff := fdivF (f32ofNat t) factor
  let sf0 := floorF sff
  let sf1 := min (sf0 + 1) (srcFrames - 1)
  let frac := fsub sff (f32ofInt sf0)
  let s0 := f32ofInt (srcData.getD (sf0 * nc + ch).toNat 0)
  let s1 := f32ofInt (srcData.getD (sf1 * nc + ch).toNat 0)
  let interp := fadd s0 (fmul (fsub s1 s0) frac)
  max (-32768) (min 32767 (floorF (fadd interp ⟨1, 2⟩)))

/-- `UOVRLipSyncDecode::ResampleAudio`.  Equal rates: an identity copy of the
first `srcSamples` samples (lines 40-46).  Otherwise `ResampleRatio` is the
binary32 quotient of the rates, `SourceFrames = SourceSamples / NumChannels`
(integer division), `TargetFrames = ceil(SourceFrames * ratio)` in binary32,
and the nested frame/channel loops produce `TargetFrames * NumChannels`
samples. -/
def resampleAudio (srcData : List ℤ) (srcSamples : ℕ) (srcRate tgtRate : ℤ) (nc : ℕ) : List ℤ :=
  if srcRate = tgtRate then srcData.take srcSamples
  else
    let factor := fdivF (f32ofInt tgtRate) (f32ofInt srcRate)
    let srcFrames : ℤ := ((srcSamples / nc : ℕ) : ℤ)
    let tgtFrames := ceilF (fmul (f32ofInt srcFrames) factor)
    (List.range tgtFrames.toNat).flatMap (fun t =>
      (List.range nc).map (fun ch => resampleOne srcData srcFrames factor nc t ch))

/-! ## Output-rate selection and assembly (`Base64ToSoundWave`, lines 197-308) -/

/-- Lines 197-213: `TargetBitrate > 0` wins and derives the rate as
`TargetBitrate / (16 * channels)` (C integer division, `Int.tdiv`);
otherwise a positive `TargetSampleRate` is used; otherwise the WAV's rate. -/
def finalSampleRateOf (h : WavHeader) (targetSampleRate targetBitrate : ℤ) : ℤ :=
  if 0 < targetBitrate then Int.tdiv targetBitrate (16 * (h.numChannels : ℤ))
  else if 0 < targetSampleRate then targetSampleRate
  else (h.sampleRate : ℤ)

/-- The observable content of the produced `USoundWave`: final sample rate,
channel count, and raw 16-bit PCM samples. -/
structure SoundWaveResult where
  sampleRate : ℤ
  numChannels : ℕ
  pcm : List ℤ
deriving DecidableEq

/-- `UOVRLipSyncDecode::Base64ToSoundWave` from the decoded bytes onward:
parse the header, convert the payload to 16-bit PCM, resample when the chosen
output rate differs from the WAV rate (lines 278-292), and assemble the
sound-wave object. -/
def base64ToSoundWave (bytes : List ℕ) (targetSampleRate targetBitrate : ℤ) :
    PResult SoundWaveResult :=
  match parseWavHeader bytes with
  | .err e => .err e
  | .ok h =>
    let finalRate := finalSampleRateOf h targetSampleRate targetBitrate
    let pcm16 := convertTo16Bit bytes h
    if finalRate ≠ (h.sampleRate : ℤ) then
      .ok ⟨finalRate, h.numChannels,
           resampleAudio pcm16 (h.dataSize / (h.bitsPerSample / 8)) (h.sampleRate : ℤ) finalRate
             h.numChannels⟩
    else .ok ⟨finalRate, h.numChannels, pcm16⟩

/-! ## Frame windowing engine (`GenerateLipSyncSequenceRuntime`, lines 329-418) -/

/-- Output of one extraction-engine call: viseme weights, laughter score and
the engine's reported delay in milliseconds.  Weights and score are opaque
payloads of type `V` (floats in the source) that the pipeline only forwards. -/
structure FrameResult (V : Type) where
  visemes : List V
  laughter : V
  delayMs : ℤ
deriving DecidableEq

/-- Input to sequence generation: the fields of `USoundWave` the function
reads.  `pcm` holds the pointed-to raw data as `int16` samples, and
`pcmDataSize` models `RawPCMDataSize / sizeof(int16)` — the code trusts the
stored size field and never recomputes it from the data. -/
structure SoundWaveData where
  numChannels : ℕ
  sampleRate : ℕ
  pcmDataSize : ℕ
  pcm : List ℤ
deriving DecidableEq

/-- `ChunkSizeSamples = (int)(SampleRate * LipSyncSequenceDuration)` (line
369), where `LipSyncSequenceDuration = 1.0f / 100` — binary32 product
truncated toward zero by the cast. -/
def chunkSizeSamplesF (sr : ℕ) : ℤ := truncF (fmul (f32ofNat sr) (fdivF ⟨1, 1⟩ ⟨100, 1⟩))

/-- `FrameOffset = (int)(FrameDelayInMs * SampleRate / 1000 * NumChannels)`
(line 385), all in binary32 (the sample rate is a `float` in the source), the
cast truncating toward zero. -/
def frameOffsetF (delayMs : ℤ) (sr nc : ℕ) : ℤ :=
  truncF (fmul (fdivF (fmul (f32ofInt delayMs) (f32ofNat sr)) (f32ofNat 1000)) (f32ofNat nc))

/-- The chunk fed to the engine at sample offset `offs` (lines 389-408):
`remainingSamples = PCMDataSize - offs`; the exact sub-range when at least
`cs` samples remain, else the remaining samples zero-padded to `cs`, else all
zeros. -/
def mkChunk (pcm : List ℤ) (total cs offs : ℕ) : List ℤ :=
  if (cs : ℤ) ≤ (total : ℤ) - (offs : ℤ) then (pcm.drop offs).take cs
  else if 0 < (total : ℤ) - (offs : ℤ) then
    (pcm.drop offs).take (total - offs) ++ List.replicate (cs - (total - offs)) 0
  else List.replicate cs 0

/-- The chunk loop (lines 387-414): `for (offs = 0; offs < PCMDataSize +
FrameOffset; offs += ChunkSize)`, each iteration calling the engine once and
appending `(visemes, laughter)` to the sequence when `offs >= FrameOffset`.
`PCMDataSize` is a `size_t`, so the guard's bound `PCMDataSize + FrameOffset`
is formed in the unsigned 64-bit type (see `genLoopBound`) and the
nonnegative `offs` is converted to it for the comparison; `bound` here is
that unsigned value.  The acceptance test `offs >= FrameOffset` compares two
`int`s, i.e. is signed.  `offs` itself is modeled as an unbounded natural;
the C `int` would overflow (undefined behavior) once `offs` exceeds `2^31`,
which is not modeled.  Returns the list of loop-call offsets and the
accumulated sequence, or `none` when `fuel` iterations did not reach the loop
exit (the C loop does not terminate when no fuel bound ever suffices). -/
def seqLoop {σ V : Type} (ext : σ → List ℤ → ℕ → Bool → σ × FrameResult V) (pcm : List ℤ)
    (total : ℕ) (bound : ℕ) (frameOffset : ℤ) (cs css nc : ℕ) :
    ℕ → σ → ℕ → Option (List ℕ × List (List V × V))
  | 0, _, offs => if offs < bound then none else some ([], [])
  | fuel + 1, s, offs =>
    if offs < bound then
      let pr := ext s (mkChunk pcm total cs offs) css (decide (1 < nc))
      match seqLoop ext pcm total bound frameOffset cs css nc fuel pr.1 (offs + cs) with
      | none => none
      | some res =>
        some (offs :: res.1,
          if frameOffset ≤ (offs : ℤ) then (pr.2.visemes, pr.2.laughter) :: res.2 else res.2)
    else some ([], [])

/-- `ChunkSizeSamples` as computed at line 369, clamped to `ℕ` (it is never
negative). -/
def genChunkSizeSamples (sw : SoundWaveData) : ℕ := (chunkSizeSamplesF sw.sampleRate).toNat

/-- `ChunkSize = NumChannels * ChunkSizeSamples` (line 370). -/
def genChunkSize (sw : SoundWaveData) : ℕ := sw.numChannels * genChunkSizeSamples sw

/-- The priming call (lines 381-383): one all-zero chunk, whose result
delivers the engine's reported delay and the advanced engine state. -/
def genPrime {σ V : Type} (ext : σ → List ℤ → ℕ → Bool → σ × FrameResult V) (s0 : σ)
    (sw : SoundWaveData) : σ × FrameResult V :=
  ext s0 (List.replicate (genChunkSize sw) 0) (genChunkSizeSamples sw)
    (decide (1 < sw.numChannels))

/-- `FrameOffset` (line 385), computed from the priming call's reported
delay. -/
def genFrameOffset {σ V : Type} (ext : σ → List ℤ → ℕ → Bool → σ × FrameResult V) (s0 : σ)
    (sw : SoundWaveData) : ℤ :=
  frameOffsetF (genPrime ext s0 sw).2.delayMs sw.sampleRate sw.numChannels

/-- The loop bound `PCMDataSize + FrameOffset` of line 387, formed in
`size_t`: `PCMDataSize = RawPCMDataSize / sizeof(int16_t)` is unsigned
64-bit, the signed `FrameOffset` is converted to it, and the sum wraps modulo
`2^64` — so a negative frame offset (an engine reporting a negative delay)
yields a bound near `2^64` and the loop keeps running rather than exiting
early. -/
def genLoopBound {σ V : Type} (ext : σ → List ℤ → ℕ → Bool → σ × FrameResult V) (s0 : σ)
    (sw : SoundWaveData) : ℕ :=
  (((sw.pcmDataSize : ℤ) + genFrameOffset ext s0 sw) % 18446744073709551616).toNat

/-- Everything observable about one run of sequence generation: the computed
chunk sizes and frame offset, the loop-call offsets, and the accumulated
sequence. -/
structure GenResult (V : Type) where
  chunkSizeSamples : ℕ
  chunkSize : ℕ
  frameOffset : ℤ
  calls : List ℕ
  sequence : List (List V × V)
deriving DecidableEq

/-- Outcome of `GenerateLipSyncSequenceRuntime`: `rejected` models the
`return nullptr` input-validation exits, `outOfFuel` covers a loop that did
not finish within `fuel` iterations. -/
inductive GenOutcome (V : Type) where
  | rejected : GenOutcome V
  | outOfFuel : GenOutcome V
  | ok : GenResult V → GenOutcome V
deriving DecidableEq

/-- `UOVRLipSyncDecode::GenerateLipSyncSequenceRuntime`: reject more than two
channels (line 337) and missing/empty PCM data (lines 344-355, the
`DecompressSoundWave` path), then prime the engine, compute the frame offset,
and run the chunk loop. -/
def generateLipSyncSequenceRuntime {σ V : Type}
    (ext : σ → List ℤ → ℕ → Bool → σ × FrameResult V) (s0 : σ) (sw : SoundWaveData)
    (fuel : ℕ) : GenOutcome V :=
  if 2 < sw.numChannels then .rejected
  else if sw.pcmDataSize = 0 then .rejected
  else
    match seqLoop ext sw.pcm sw.pcmDataSize (genLoopBound ext s0 sw)
        (genFrameOffset ext s0 sw) (genChunkSize sw) (genChunkSizeSamples sw)
        sw.numChannels fuel (genPrime ext s0 sw).1 0 with
    | none => .outOfFuel
    | some res => .ok ⟨genChunkSizeSamples sw, genChunkSize sw, genFrameOffset ext s0 sw,
        res.1, res.2⟩

/-- Termination of sequence generation for a given engine and input: some
fuel bound suffices for the loop to exit. -/
def generateTerminates {σ V : Type} (ext : σ → List ℤ → ℕ → Bool → σ × FrameResult V)
    (s0 : σ) (sw : SoundWaveData) : Prop :=
  ∃ fuel r, generateLipSyncSequenceRuntime ext s0 sw fuel = GenOutcome.ok r

/-! ## Comparison definitions, test engines and concrete byte buffers -/

/-- The sample rate of a produced sound wave (0 on failure). -/
def resultSampleRate : PResult SoundWaveResult → ℤ
  | .err _ => 0
  | .ok r => r.sampleRate

/-- Modelled from the spec: the chunk-unit scan described in §4.1 — "Scans
forward from offset 12 in chunk units: each chunk is (4-byte tag, 4-byte
little-endian size, size bytes of payload).  The scan must skip unknown
chunks by adding 8 + declaredSize to the cursor."  Present only to compare
the code's byte-wise scan against the spec's description. -/
def specChunkScan (bytes : List ℕ) (t0 t1 t2 t3 : ℕ) : ℕ → ℕ → Option ℕ
  | 0, _ => none
  | fuel + 1, pos =>
    if pos < bytes.length - 8 then
      if tagAt bytes pos t0 t1 t2 t3 then some pos
      else specChunkScan bytes t0 t1 t2 t3 fuel (pos + 8 + readU32 bytes (pos + 4))
    else none

/-- A test extraction engine whose state counts its calls: the n-th call
(0-based) returns viseme payload `[n]`, laughter score `n`, and a constant
reported delay of 10 ms.  The distinct payloads make the order and selection
of accepted frames observable. -/
def countEngine : ℕ → List ℤ → ℕ → Bool → ℕ × FrameResult ℤ :=
  fun n _ _ _ => (n + 1, ⟨[(n : ℤ)], (n : ℤ), 10⟩)

/-- A stateless test extraction engine reporting zero delay and empty
output. -/
def zeroEngine : Unit → List ℤ → ℕ → Bool → Unit × FrameResult ℤ :=
  fun _ _ _ _ => ((), ⟨[], 0, 0⟩)

/-- A valid 48-byte WAV: PCM, THREE channels, 8000 Hz, 16-bit, a 4-byte data
payload of zeros. -/
def wav3ch : List ℕ :=
  [82, 73, 70, 70, 40, 0, 0, 0, 87, 65, 86, 69,
   102, 109, 116, 32, 16, 0, 0, 0, 1, 0, 3, 0, 64, 31, 0, 0, 0, 125, 0, 0, 6, 0, 16, 0,
   100, 97, 116, 97, 4, 0, 0, 0, 0, 0, 0, 0]

/-- A valid 46-byte WAV: PCM, stereo, 8000 Hz, 16-bit, whose data chunk
declares 2 bytes — a single 16-bit sample, which is not a whole stereo
frame. -/
def wavStereoOdd : List ℕ :=
  [82, 73, 70, 70, 38, 0, 0, 0, 87, 65, 86, 69,
   102, 109, 116, 32, 16, 0, 0, 0, 1, 0, 2, 0, 64, 31, 0, 0, 0, 125, 0, 0, 4, 0, 16, 0,
   100, 97, 116, 97, 2, 0, 0, 0, 0, 0]

/-- A 48-byte WAV: PCM, mono, 8000 Hz, 16-bit, whose data chunk declares size
`0xFFFFFFF8` (4294967288) with only 4 payload bytes present. -/
def wavWrap : List ℕ :=
  [82, 73, 70, 70, 40, 0, 0, 0, 87, 65, 86, 69,
   102, 109, 116, 32, 16, 0, 0, 0, 1, 0, 1, 0, 64, 31, 0, 0, 64, 62, 0, 0, 2, 0, 16, 0,
   100, 97, 116, 97, 248, 255, 255, 255, 0, 0, 0, 0]

/-- A 58-byte WAV whose first chunk after the header is a `LIST` chunk of
declared size 4 whose payload is the four bytes `d a t a`, followed by a
valid `fmt ` chunk and the real `data` chunk (declared size 2) at offset
48. -/
def wavEmbedded : List ℕ :=
  [82, 73, 70, 70, 50, 0, 0, 0, 87, 65, 86, 69,
   76, 73, 83, 84, 4, 0, 0, 0, 100, 97, 116, 97,
   102, 109, 116, 32, 16, 0, 0, 0, 1, 0, 1, 0, 64, 31, 0, 0, 0, 125, 0, 0, 2, 0, 16, 0,
   100, 97, 116, 97, 2, 0, 0, 0, 0, 0]

/-! ## Helper lemmas -/

/-- With a positive chunk size, `fuel ≥ (bound - offs)` iterations always
reach the loop exit. -/
theorem seqLoop_isSome {σ V : Type} (ext : σ → List ℤ → ℕ → Bool → σ × FrameResult V)
    (pcm : List ℤ) (total bound : ℕ) (frameOffset : ℤ) (cs css nc : ℕ) (hcs : 0 < cs) :
    ∀ (fuel : ℕ) (s : σ) (offs : ℕ), bound - offs ≤ fuel →
      (seqLoop ext pcm total bound frameOffset cs css nc fuel s offs).isSome := by
  intro fuel
  induction fuel with
  | zero =>
    intro s offs h
    simp only [seqLoop]
    rw [if_neg (by omega)]
    simp
  | succ n ih =>
    intro s offs h
    simp only [seqLoop]
    by_cases hb : offs < bound
    · rw [if_pos hb]
      have h2 : bound - (offs + cs) ≤ n := by omega
      obtain ⟨v, hv⟩ := Option.isSome_iff_exists.mp
        (ih (ext s (mkChunk pcm total cs offs) css (decide (1 < nc))).1 (offs + cs) h2)
      rw [hv]
      simp
    · rw [if_neg hb]
      simp

/-- With chunk size zero and a positive loop bound, no amount of fuel reaches
the loop exit: the concrete diverging instance used below. -/
theorem seqLoop_zero_chunk_none :
    ∀ (fuel : ℕ) (s : Unit) (pcm : List ℤ) (total nc : ℕ),
      seqLoop zeroEngine pcm total 1 0 0 0 nc fuel s 0 = none := by
  intro fuel
  induction fuel with
  | zero => intro s pcm total nc; simp [seqLoop]
  | succ n ih => intro s pcm total nc; simp [seqLoop, zeroEngine, ih]

/-! ## Claim theorems -/

/-- Claim C1: for a mono 16000 Hz, 16000-sample all-zero PCM input with the
extraction engine reporting a 10 ms delay from the priming call, the computed
`chunkSizeSamples` and `frameOffset` are both 160, the chunk loop calls the
engine exactly 101 times at offsets 0, 160, ..., 16000, and exactly the 100
calls at offsets ≥ 160 have their (visemes, laughter) results appended to the
sequence in offset order.  The counting engine makes the selection and order
observable: the loop calls are engine calls 1..101 (call 0 is the priming
call), and the sequence is exactly the results of calls 2..101. -/
theorem generate_scenario_mono16k :
    generateLipSyncSequenceRuntime countEngine 0 ⟨1, 16000, 16000, List.replicate 16000 0⟩ 101 =
      GenOutcome.ok ⟨160, 160, 160, (List.range 101).map (fun i => 160 * i),
        (List.range 100).map (fun i => ([(i : ℤ) + 2], (i : ℤ) + 2))⟩ := by decide

/-- Claim C3, counterexample: the windowing engine computes the chunk size by
casting the binary32 product `sampleRate * 0.01f` to `int` (truncation toward
zero), not by rounding to nearest: at sample rate 150 the code yields 1 while
`round(150 * 0.01) = 2`. -/
theorem chunkSize_truncates_not_rounds :
    chunkSizeSamplesF 150 = 1 ∧ round ((150 : ℚ) * (1 / 100)) = 2 := by
  refine ⟨by decide, ?_⟩
  norm_num [round_eq]

/-- Claim C3, amended: for every sample rate that is a multiple of 100 (shown
for all such rates up to 48000 Hz) the truncated binary32 product equals
`sampleRate / 100`, which is `round(sampleRate * 0.01)` exactly; and every
successful sequence generation has interleaved chunk size equal to
`channelCount * chunkSizeSamples` with `chunkSizeSamples` the truncated
binary32 product. -/
theorem chunkSize_exact_on_centihertz :
    (∀ k : ℕ, k < 480 → chunkSizeSamplesF (100 * (k + 1)) = (k : ℤ) + 1) ∧
    (∀ (σ V : Type) (ext : σ → List ℤ → ℕ → Bool → σ × FrameResult V) (s0 : σ)
        (sw : SoundWaveData) (fuel : ℕ) (r : GenResult V),
      generateLipSyncSequenceRuntime ext s0 sw fuel = GenOutcome.ok r →
        r.chunkSize = sw.numChannels * r.chunkSizeSamples ∧
          r.chunkSizeSamples = (chunkSizeSamplesF sw.sampleRate).toNat) := by
  constructor
  · decide
  · intro σ V ext s0 sw fuel r h
    unfold generateLipSyncSequenceRuntime at h
    split at h
    · cases h
    · split at h
      · cases h
      · split at h
        · cases h
        · cases h
          simp [genChunkSize, genChunkSizeSamples]

/-- Witness for `chunkSize_exact_on_centihertz` at the concrete rate
16000 Hz. -/
theorem chunkSize_exact_on_centihertz_witness :
    chunkSizeSamplesF (100 * (159 + 1)) = (159 : ℤ) + 1 :=
  chunkSize_exact_on_centihertz.1 159 (by decide)

/-- Claim C8: the 8-bit normalizer maps every source byte `s` to
`(s - 128) * 256`; in particular 0 ↦ -32768 and 255 ↦ 32512. -/
theorem normalize8_formula :
    (∀ s : ℕ, s < 256 → conv8 s = ((s : ℤ) - 128) * 256) ∧
      conv8 0 = -32768 ∧ conv8 255 = 32512 := by
  refine ⟨by decide, by decide, by decide⟩

/-- Witness for `normalize8_formula` at the concrete byte 7. -/
theorem normalize8_formula_witness : conv8 7 = ((7 : ℤ) - 128) * 256 :=
  normalize8_formula.1 7 (by decide)

/-- Claim C9: resampling with the target rate equal to the source rate is the
identity: the output is bit-identical to (and in particular the same length
as) the input. -/
theorem resample_identity (srcData : List ℤ) (rate : ℤ) (nc : ℕ) :
    resampleAudio srcData srcData.length rate rate nc = srcData := by
  unfold resampleAudio
  rw [if_pos rfl]
  exact List.take_length srcData

/-- Claim C2, counterexample: the code's tag scan advances one byte at a time
and here matches the four bytes `d a t a` at offset 20 — strictly inside the
payload of the `LIST` chunk that starts at offset 12 (payload bytes 20..23,
since its declared size is 4) — whereas the chunk-unit scan the spec
describes skips the `LIST` and `fmt ` chunks and finds the real `data` chunk
at offset 48. -/
theorem scan_matches_inside_payload :
    scanTag wavEmbedded 100 97 116 97 58 12 = some 20 ∧
      specChunkScan wavEmbedded 100 97 116 97 58 12 = some 48 ∧
      12 + 8 ≤ 20 ∧ 20 < 12 + 8 + readU32 wavEmbedded 16 := by decide

/-- Claim C2, amended: the parser's scan advances in single-byte units — when
the four bytes at the cursor are not the sought tag it advances the cursor by
exactly 1, so any returned position is the first tag occurrence at or after
the start position (and may lie inside another chunk's payload). -/
theorem scanTag_first_occurrence (bytes : List ℕ) (t0 t1 t2 t3 : ℕ) :
    ∀ (fuel pos p : ℕ), scanTag bytes t0 t1 t2 t3 fuel pos = some p →
      pos ≤ p ∧ p < bytes.length - 8 ∧ tagAt bytes p t0 t1 t2 t3 = true ∧
        ∀ q, pos ≤ q → q < p → tagAt bytes q t0 t1 t2 t3 = false := by
  intro fuel
  induction fuel with
  | zero => intro pos p h; simp [scanTag] at h
  | succ n ih =>
    intro pos p h
    simp only [scanTag] at h
    by_cases hb : pos < bytes.length - 8
    · rw [if_pos hb] at h
      by_cases ht : tagAt bytes pos t0 t1 t2 t3 = true
      · rw [if_pos ht] at h
        obtain rfl : pos = p := by injection h
        exact ⟨le_refl _, hb, ht, fun q hq1 hq2 => absurd (lt_of_le_of_lt hq1 hq2) (lt_irrefl _)⟩
      · rw [if_neg ht] at h
        obtain ⟨h1, h2, h3, h4⟩ := ih (pos + 1) p h
        refine ⟨by omega, h2, h3, ?_⟩
        intro q hq1 hq2
        rcases Nat.eq_or_lt_of_le hq1 with rfl | hlt
        · simpa using ht
        · exact h4 q (by omega) hq2
    · rw [if_neg hb] at h
      cases h

/-- Witness for `scanTag_first_occurrence`: the `fmt ` scan on the concrete
buffer `wav3ch` stops at offset 12, which is a first occurrence. -/
theorem scanTag_first_occurrence_witness :
    12 ≤ 12 ∧ 12 < wav3ch.length - 8 ∧ tagAt wav3ch 12 102 109 116 32 = true ∧
      ∀ q, 12 ≤ q → q < 12 → tagAt wav3ch q 102 109 116 32 = false :=
  scanTag_first_occurrence wav3ch 102 109 116 32 wav3ch.length 12 12 (by decide)

/-- Claim C4, counterexample: the container parser accepts a fmt chunk
declaring THREE channels — there is no channel-count validation in
`Base64ToSoundWave` at all, so no `UnsupportedChannelCount` failure occurs
and a sound wave with 3 channels is produced. -/
theorem parser_accepts_three_channels :
    base64ToSoundWave wav3ch 0 0 = PResult.ok ⟨8000, 3, [0, 0]⟩ ∧ ¬((3 : ℕ) = 1 ∨ (3 : ℕ) = 2) := by
  refine ⟨by decide, by decide⟩

/-- Claim C4, amended: channel-count validation exists only in sequence
generation — `GenerateLipSyncSequenceRuntime` rejects every sound wave with
more than two channels. -/
theorem generate_rejects_over_two_channels {σ V : Type}
    (ext : σ → List ℤ → ℕ → Bool → σ × FrameResult V) (s0 : σ) (sw : SoundWaveData)
    (fuel : ℕ) (h : 2 < sw.numChannels) :
    generateLipSyncSequenceRuntime ext s0 sw fuel = GenOutcome.rejected := by
  unfold generateLipSyncSequenceRuntime
  rw [if_pos h]

/-- Witness for `generate_rejects_over_two_channels` on a concrete 3-channel
sound wave. -/
theorem generate_rejects_over_two_channels_witness :
    generateLipSyncSequenceRuntime countEngine 0 ⟨3, 8000, 4, [0, 0, 0, 0]⟩ 5 =
      GenOutcome.rejected :=
  generate_rejects_over_two_channels countEngine 0 ⟨3, 8000, 4, [0, 0, 0, 0]⟩ 5 (by decide)

/-- Claim C5, counterexample: with a 50 Hz sample rate the computed chunk
size is zero (`(int)(50 * 0.01f) = 0`), so on a validated mono input with one
PCM sample the chunk loop's `offs += ChunkSize` never advances and the loop
never terminates: no fuel bound ever reaches the loop exit. -/
theorem generate_diverges_zero_chunk :
    ¬ generateTerminates zeroEngine () ⟨1, 50, 1, [0]⟩ := by
  rintro ⟨fuel, r, hr⟩
  have hcss : genChunkSizeSamples ⟨1, 50, 1, [0]⟩ = 0 := by decide
  have hcs : genChunkSize ⟨1, 50, 1, [0]⟩ = 0 := by decide
  have hfo : genFrameOffset zeroEngine () ⟨1, 50, 1, [0]⟩ = 0 := by decide
  have hb : genLoopBound zeroEngine () ⟨1, 50, 1, [0]⟩ = 1 := by decide
  unfold generateLipSyncSequenceRuntime at hr
  rw [if_neg (by decide), if_neg (by decide)] at hr
  rw [hcss, hcs, hfo, hb] at hr
  rw [seqLoop_zero_chunk_none fuel _ _ _ _] at hr
  exact GenOutcome.noConfusion hr

/-- Claim C5, amended: whenever the interleaved chunk size
`NumChannels * ChunkSizeSamples` is positive, the chunk loop of a validated
input (≤ 2 channels, nonempty PCM) reaches its exit after finitely many
iterations and yields a sequence, for every extraction engine.  The loop
bound is the `size_t` sum `PCMDataSize + FrameOffset` (see `genLoopBound`),
so for an engine reporting a negative delay the bound wraps to a value near
`2^64`: the loop still exits in this model, but only after an astronomical
number of iterations — in the C program the `int` chunk offset would overflow
(undefined behavior) long before reaching such a bound. -/
theorem generate_terminates_pos_chunk {σ V : Type}
    (ext : σ → List ℤ → ℕ → Bool → σ × FrameResult V) (s0 : σ) (sw : SoundWaveData)
    (h2 : sw.numChannels ≤ 2) (hpcm : sw.pcmDataSize ≠ 0) (hcs : 0 < genChunkSize sw) :
    ∃ fuel r, generateLipSyncSequenceRuntime ext s0 sw fuel = GenOutcome.ok r := by
  refine ⟨genLoopBound ext s0 sw, ?_⟩
  unfold generateLipSyncSequenceRuntime
  rw [if_neg (by omega), if_neg hpcm]
  obtain ⟨v, hv⟩ := Option.isSome_iff_exists.mp
    (seqLoop_isSome ext sw.pcm sw.pcmDataSize (genLoopBound ext s0 sw)
      (genFrameOffset ext s0 sw) (genChunkSize sw) (genChunkSizeSamples sw) sw.numChannels hcs
      (genLoopBound ext s0 sw) (genPrime ext s0 sw).1 0 (by omega))
  obtain ⟨v1, v2⟩ := v
  rw [hv]
  exact ⟨_, rfl⟩

/-- Witness for `generate_terminates_pos_chunk` on a concrete one-sample
16000 Hz mono input. -/
theorem generate_terminates_pos_chunk_witness :
    ∃ fuel r, generateLipSyncSequenceRuntime countEngine 0 ⟨1, 16000, 1, [5]⟩ fuel =
      GenOutcome.ok r :=
  generate_terminates_pos_chunk countEngine 0 ⟨1, 16000, 1, [5]⟩ (by decide) (by decide)
    (by decide)

/-- Claim C6: the data-size bounds check computes `DataStart + DataSize` in
`uint32`, wrapping modulo `2^32`: on a 48-byte buffer whose data chunk
declares size 4294967288 at payload offset 44, the wrapped sum is 36 ≤ 48, so
the check passes and parsing SUCCEEDS, although the true
`pcmByteOffset + pcmByteLength = 4294967332` exceeds the 48-byte input — the
recorded offset and length violate the claimed invariant instead of failing
with `DataExceedsBuffer`. -/
theorem overflow_check_wraps :
    base64ToSoundWave wavWrap 0 0 = PResult.ok ⟨8000, 1, [0, 0]⟩ ∧
      parseWavHeader wavWrap = PResult.ok ⟨1, 1, 8000, 16, 44, 4294967288⟩ ∧
      wavWrap.length < 44 + 4294967288 := by
  refine ⟨by decide, by decide, by decide⟩

/-- Claim C7, counterexample: the parser accepts a stereo 16-bit WAV whose
data chunk declares 2 bytes, and the normalizer then outputs a single sample
— `2 / 2 = 1` — which is not a multiple of the channel count 2. -/
theorem normalizer_count_not_multiple :
    base64ToSoundWave wavStereoOdd 0 0 = PResult.ok ⟨8000, 2, [0]⟩ ∧
      ¬((2 : ℕ) ∣ [(0 : ℤ)].length) := by
  refine ⟨by decide, by norm_num⟩

/-- Claim C7, amended: the resampler's non-identity path always outputs
`TargetFrames * NumChannels` samples, an exact multiple of the channel count;
the normalizer's output count `dataSize / (bitsPerSample/8)` carries no such
guarantee, since the parser accepts any declared data size. -/
theorem resample_length_multiple (srcData : List ℤ) (srcSamples : ℕ) (srcRate tgtRate : ℤ)
    (nc : ℕ) (h : srcRate ≠ tgtRate) :
    nc ∣ (resampleAudio srcData srcSamples srcRate tgtRate nc).length := by
  unfold resampleAudio
  rw [if_neg h]
  rw [List.length_flatMap]
  simp only [Function.comp_def, List.length_map, List.length_range]
  rw [List.map_const', List.sum_const_nat]
  exact dvd_mul_left nc _

/-- Witness for `resample_length_multiple` on a concrete stereo upsampling
call. -/
theorem resample_length_multiple_witness :
    (2 : ℕ) ∣ (resampleAudio [0, 0] 2 8000 16000 2).length :=
  resample_length_multiple [0, 0] 2 8000 16000 2 (by decide)

/-- Claim C10: when `TargetBitrate > 0` the output sample rate is
`TargetBitrate / (16 * channelCount)` by C integer division and the
`TargetSampleRate` argument is ignored entirely (the whole result is
unchanged by it); when `TargetBitrate ≤ 0` a positive `TargetSampleRate` is
used as the output rate; otherwise the WAV's own sample rate is kept. -/
theorem finalRate_selection (bytes : List ℕ) (tsr tsr2 tb : ℤ) (h : WavHeader)
    (hok : parseWavHeader bytes = PResult.ok h) (hch : 0 < h.numChannels) :
    (0 < tb → resultSampleRate (base64ToSoundWave bytes tsr tb) =
          Int.tdiv tb (16 * (h.numChannels : ℤ)) ∧
        base64ToSoundWave bytes tsr tb = base64ToSoundWave bytes tsr2 tb) ∧
      (tb ≤ 0 → 0 < tsr → resultSampleRate (base64ToSoundWave bytes tsr tb) = tsr) ∧
      (tb ≤ 0 → tsr ≤ 0 →
        resultSampleRate (base64ToSoundWave bytes tsr tb) = (h.sampleRate : ℤ)) := by
  have hrate : ∀ t b : ℤ,
      resultSampleRate (base64ToSoundWave bytes t b) = finalSampleRateOf h t b := by
    intro t b
    simp only [base64ToSoundWave, hok]
    split
    · rfl
    · rfl
  refine ⟨fun htb => ⟨?_, ?_⟩, fun htb hts => ?_, fun htb hts => ?_⟩
  · rw [hrate]
    unfold finalSampleRateOf
    rw [if_pos htb]
  · have hfr : finalSampleRateOf h tsr tb = finalSampleRateOf h tsr2 tb := by
      unfold finalSampleRateOf
      rw [if_pos htb, if_pos htb]
    simp only [base64ToSoundWave, hok, hfr]
  · rw [hrate]
    unfold finalSampleRateOf
    rw [if_neg (by omega), if_pos hts]
  · rw [hrate]
    unfold finalSampleRateOf
    rw [if_neg (by omega), if_neg (by omega)]

/-- Witness for `finalRate_selection`: on the concrete buffer `wav3ch`
(3 channels) with `TargetBitrate = 96000`, the output rate is
`96000 / (16*3) = 2000`. -/
theorem finalRate_selection_witness :
    resultSampleRate (base64ToSoundWave wav3ch 5 96000) = Int.tdiv 96000 (16 * 3) :=
  ((finalRate_selection wav3ch 5 7 96000 ⟨1, 3, 8000, 16, 44, 4⟩ (by decide) (by decide)).1
    (by decide)).1
